import Mathlib

/-!
Verification of `scripts/match_predicts_major_tom_fixed.py`.

The script matches biodiversity survey sites (PREDICTS) to the nearest
satellite metadata patch (Major TOM / Sentinel-2).  We embed the three
relevant functions shallowly:

* `haversine_distance` — the great-circle distance, over exact reals
  (the Python floats are interpreted as real numbers);
* `load_predicts_sites` — CSV concatenation, land-use filter, dropna
  and date parsing (the `pd.to_datetime(errors="coerce")` parser is a
  parameter, since its internals are library code);
* `match_nearest_patches` — per-site bounding-box prefilter, cloud-cover
  filter, `nsmallest(max_candidates, "distance_km")` pruning (a stable
  sort by distance followed by `take`, which is the documented
  `keep="first"` behaviour), the stable lexicographic
  `sort_values(["distance_km", "lag_days", "cloud_cover"])`
  (pandas uses `np.lexsort`, which is stable, for multi-column sorts)
  and `iloc[0]`.

Timestamps are integers (seconds); `pd.to_datetime(..., errors="coerce")`
of a metadata timestamp is modelled as `Option ℤ` with `none` for `NaT`.
A `NaT` acquisition timestamp yields a `NaN` temporal lag, which
`np.lexsort` orders last; the lex key therefore lives in
`ℝ ×ₗ ((WithTop ℤ) ×ₗ ℝ)` with the lag component `⊤` for `NaT`.
-/

namespace MajorTomMatch

open Classical

noncomputable section

/-- Degrees to radians, `np.radians`. -/
def radians (x : ℝ) : ℝ := x * (Real.pi / 180)

/-- Embedding of `haversine_distance(lat1, lon1, lat2, lon2)`
(source lines 14–29): `R = 6371`;
`a = sin(dlat/2)**2 + cos(lat1_rad) * cos(lat2_rad) * sin(dlon/2)**2`;
`c = 2 * arcsin(sqrt(a))`; result `R * c`. -/
def haversine_distance (lat1 lon1 lat2 lon2 : ℝ) : ℝ :=
  let R : ℝ := 6371
  let lat1_rad := radians lat1
  let lat2_rad := radians lat2
  let dlat := radians (lat2 - lat1)
  let dlon := radians (lon2 - lon1)
  let a := Real.sin (dlat / 2) ^ 2 +
    Real.cos lat1_rad * Real.cos lat2_rad * Real.sin (dlon / 2) ^ 2
  let c := 2 * Real.arcsin (Real.sqrt a)
  R * c

/-- One row of the loaded sites table: the eight selected CSV columns plus
the `source_file` and `site_uid` columns added by `load_predicts_sites`.
`Sample_midpoint` is the parsed datetime, in integer seconds. -/
structure SiteRow where
  Site_number : String
  Source_ID : String
  Latitude : ℝ
  Longitude : ℝ
  Predominant_land_use : String
  Sample_midpoint : ℤ
  Country : String
  Use_intensity : String
  source_file : String
  site_uid : String

/-- One row of the Major TOM metadata table (the eight columns read by
`match_nearest_patches`, with `timestamp` already parsed into
`timestamp_dt`; `none` models `NaT` from `errors="coerce"`). -/
structure Patch where
  grid_cell : String
  product_id : String
  timestamp_dt : Option ℤ
  cloud_cover : ℝ
  centre_lat : ℝ
  centre_lon : ℝ
  parquet_url : String
  parquet_row : ℤ

/-- The eight match fields appended to a site row on a successful match. -/
structure MatchRec where
  product_id : String
  eo_timestamp : Option ℤ
  lag_days : Option ℤ
  cloud_cover : ℝ
  distance_km : ℝ
  parquet_url : String
  parquet_row : ℤ
  grid_cell : String

/-- `(candidates["timestamp_dt"] - site_row["Sample_midpoint"]).abs().dt.days`:
the whole-day count of the absolute difference (floor division of the
non-negative difference in seconds by 86400). -/
def dayLag (mid t : ℤ) : ℤ := ((t - mid).natAbs : ℤ) / 86400

/-- The temporal-lag sort key of a patch: `⊤` (ordered last, as `np.lexsort`
orders `NaN`) when the acquisition timestamp failed to parse. -/
def lagTop (mid : ℤ) (p : Patch) : WithTop ℤ :=
  match p.timestamp_dt with
  | none => ⊤
  | some t => (dayLag mid t : ℤ)

/-- The lexicographic sort key of
`sort_values(["distance_km", "lag_days", "cloud_cover"])`. -/
def patchKey (s : SiteRow) (p : Patch) : ℝ ×ₗ ((WithTop ℤ) ×ₗ ℝ) :=
  toLex (haversine_distance s.Latitude s.Longitude p.centre_lat p.centre_lon,
    toLex (lagTop s.Sample_midpoint p, p.cloud_cover))

/-- Comparison by exact haversine distance to the site
(the `nsmallest(max_candidates, "distance_km")` ordering). -/
def distLe (s : SiteRow) (p q : Patch) : Prop :=
  haversine_distance s.Latitude s.Longitude p.centre_lat p.centre_lon ≤
    haversine_distance s.Latitude s.Longitude q.centre_lat q.centre_lon

/-- Comparison by the lexicographic (distance, lag, cloud) key. -/
def keyLe (s : SiteRow) (p q : Patch) : Prop := patchKey s p ≤ patchKey s q

/-- The bounding-box prefilter of `match_nearest_patches` (source lines
76–81): both centre coordinates within `search_radius_deg` of the site. -/
def inBox (s : SiteRow) (search_radius_deg : ℝ) (p : Patch) : Prop :=
  p.centre_lat ≥ s.Latitude - search_radius_deg ∧
  p.centre_lat ≤ s.Latitude + search_radius_deg ∧
  p.centre_lon ≥ s.Longitude - search_radius_deg ∧
  p.centre_lon ≤ s.Longitude + search_radius_deg

/-- A patch acceptable for a site: inside the bounding box and with cloud
cover at most the threshold. -/
def acceptable (s : SiteRow) (search_radius_deg max_cloud_cover : ℝ)
    (p : Patch) : Prop :=
  inBox s search_radius_deg p ∧ p.cloud_cover ≤ max_cloud_cover

/-- The record appended on a successful match (source lines 135–145):
`eo_timestamp` is `best["timestamp_dt"]`, `lag_days` the whole-day lag,
`distance_km` the exact haversine distance computed at line 99. -/
def mkRec (s : SiteRow) (p : Patch) : MatchRec :=
  { product_id := p.product_id
    eo_timestamp := p.timestamp_dt
    lag_days := p.timestamp_dt.map (fun t => dayLag s.Sample_midpoint t)
    cloud_cover := p.cloud_cover
    distance_km := haversine_distance s.Latitude s.Longitude p.centre_lat p.centre_lon
    parquet_url := p.parquet_url
    parquet_row := p.parquet_row
    grid_cell := p.grid_cell }

/-- The per-site body of the loop of `match_nearest_patches` (source lines
68–145): bounding-box prefilter, empty check, cloud-cover filter, empty
check, `nsmallest(max_candidates, "distance_km")` (stable sort by distance,
then `take`), temporal lag, stable lexicographic sort, `iloc[0]`. -/
def matchOne (meta : List Patch) (search_radius_deg : ℝ) (max_candidates : ℕ)
    (max_cloud_cover : ℝ) (s : SiteRow) : Option MatchRec :=
  let candidates := meta.filter fun p => decide (inBox s search_radius_deg p)
  if candidates.isEmpty then none else
  let candidates2 := candidates.filter fun p => decide (p.cloud_cover ≤ max_cloud_cover)
  if candidates2.isEmpty then none else
  let pruned := (List.insertionSort (distLe s) candidates2).take max_candidates
  let sorted := List.insertionSort (keyLe s) pruned
  match sorted with
  | [] => none
  | best :: _ => some (mkRec s best)

/-- Embedding of `match_nearest_patches(sites, metadata_path, ...)`
(source lines 51–147): one output record per site, in order; each record
is the site row's fields together with the match fields (the two field
sets are disjoint, so the record is modelled as a pair). -/
def match_nearest_patches (sites : List SiteRow) (meta : List Patch)
    (search_radius_deg : ℝ) (max_candidates : ℕ) (max_cloud_cover : ℝ) :
    List (SiteRow × Option MatchRec) :=
  sites.map fun s => (s, matchOne meta search_radius_deg max_candidates max_cloud_cover s)

/-- `AG_LAND_USES` (source line 12). -/
def AG_LAND_USES : List String := ["Cropland", "Pasture", "Plantation forest"]

/-- One raw row of a PREDICTS site-level CSV, restricted to the eight
columns read by `load_predicts_sites`; nullable columns are `Option`. -/
structure RawRow where
  Site_number : String
  Source_ID : String
  Latitude : Option ℝ
  Longitude : Option ℝ
  Predominant_land_use : String
  Sample_midpoint : Option String
  Country : String
  Use_intensity : String

/-- The site row built from a surviving raw row: all selected columns,
`source_file` from the path, and
`site_uid = Source_ID + "::" + Site_number` (source line 48). -/
def mkSite (src : String) (r : RawRow) (la lo : ℝ) (d : ℤ) : SiteRow :=
  { Site_number := r.Site_number
    Source_ID := r.Source_ID
    Latitude := la
    Longitude := lo
    Predominant_land_use := r.Predominant_land_use
    Sample_midpoint := d
    Country := r.Country
    Use_intensity := r.Use_intensity
    source_file := src
    site_uid := r.Source_ID ++ "::" ++ r.Site_number }

/-- Embedding of `load_predicts_sites(paths)` (source lines 31–49).
Each input file is a `(name, rows)` pair; `parseDate` models
`pd.to_datetime(..., errors="coerce")` on a non-null cell.  In order:
concatenation with a `source_file` tag, the `isin(AG_LAND_USES)` filter,
then `dropna(subset=["Latitude", "Longitude", "Sample_midpoint"])`,
`to_datetime(errors="coerce")` and the second `dropna` — the last three
steps are one `filterMap`, since the intermediate frame carries nothing
else. -/
def load_predicts_sites (parseDate : String → Option ℤ)
    (paths : List (String × List RawRow)) : List SiteRow :=
  let frames := paths.flatMap fun pr => pr.2.map fun r => (pr.1, r)
  let ag := frames.filter fun fr => decide (fr.2.Predominant_land_use ∈ AG_LAND_USES)
  ag.filterMap fun fr =>
    match fr.2.Latitude, fr.2.Longitude, fr.2.Sample_midpoint with
    | some la, some lo, some ms =>
      match parseDate ms with
      | some d => some (mkSite fr.1 fr.2 la lo d)
      | none => none
    | _, _, _ => none

/-- Modelled from the claim wording, for comparison with
`load_predicts_sites`: exactly the rows of the concatenated input whose
`Predominant_land_use` is one of Cropland, Pasture or Plantation forest,
whose `Latitude` and `Longitude` are non-null and whose `Sample_midpoint`
parses as a date, with `site_uid = Source_ID + "::" + Site_number`. -/
def load_predicts_sitesSpec (parseDate : String → Option ℤ)
    (paths : List (String × List RawRow)) : List SiteRow :=
  (paths.flatMap fun pr => pr.2.map fun r => (pr.1, r)).filterMap fun fr =>
    match fr.2.Latitude, fr.2.Longitude, fr.2.Sample_midpoint with
    | some la, some lo, some ms =>
      if fr.2.Predominant_land_use ∈ AG_LAND_USES then
        match parseDate ms with
        | some d => some
            { Site_number := fr.2.Site_number
              Source_ID := fr.2.Source_ID
              Latitude := la
              Longitude := lo
              Predominant_land_use := fr.2.Predominant_land_use
              Sample_midpoint := d
              Country := fr.2.Country
              Use_intensity := fr.2.Use_intensity
              source_file := fr.1
              site_uid := fr.2.Source_ID ++ "::" ++ fr.2.Site_number }
        | none => none
      else none
    | _, _, _ => none

/-! ### Properties of the haversine distance -/

/-- C4: for all input coordinates, `haversine_distance` equals the
haversine great-circle formula
`2 * R * arcsin(sqrt(sin^2(dlat/2) + cos(lat1) * cos(lat2) * sin^2(dlon/2)))`
with `R = 6371` km, latitudes and coordinate differences first converted
from degrees to radians, over exact real arithmetic. -/
theorem haversine_eq_formula (lat1 lon1 lat2 lon2 : ℝ) :
    haversine_distance lat1 lon1 lat2 lon2 =
      2 * 6371 * Real.arcsin (Real.sqrt (Real.sin (radians (lat2 - lat1) / 2) ^ 2 +
        Real.cos (radians lat1) * Real.cos (radians lat2) *
          Real.sin (radians (lon2 - lon1) / 2) ^ 2)) := by
  simp only [haversine_distance]
  ring

/-- C10: over exact real arithmetic, `haversine_distance` is symmetric in
its two points, non-negative, and zero when the two points coincide. -/
theorem haversine_symm_nonneg_self (lat1 lon1 lat2 lon2 : ℝ) :
    haversine_distance lat1 lon1 lat2 lon2 = haversine_distance lat2 lon2 lat1 lon1 ∧
    0 ≤ haversine_distance lat1 lon1 lat2 lon2 ∧
    haversine_distance lat1 lon1 lat1 lon1 = 0 := by
  refine ⟨?_, ?_, ?_⟩
  · simp only [haversine_distance]
    have h1 : radians (lat1 - lat2) = -radians (lat2 - lat1) := by
      simp only [radians]; ring
    have h2 : radians (lon1 - lon2) = -radians (lon2 - lon1) := by
      simp only [radians]; ring
    rw [h1, h2, neg_div, Real.sin_neg, neg_div, Real.sin_neg]
    ring_nf
  · simp only [haversine_distance]
    exact mul_nonneg (by norm_num)
      (mul_nonneg (by norm_num) (Real.arcsin_nonneg.mpr (Real.sqrt_nonneg _)))
  · simp [haversine_distance, radians, sub_self]

/-! ### Frame and determinism properties of the matcher -/

/-- C5: `match_nearest_patches` returns exactly one output record per
input site, in input order, and the site component of each output record
is the corresponding input site row, unchanged. -/
theorem match_preserves_sites (sites : List SiteRow) (meta : List Patch)
    (search_radius_deg : ℝ) (max_candidates : ℕ) (max_cloud_cover : ℝ) :
    (match_nearest_patches sites meta search_radius_deg max_candidates
        max_cloud_cover).map Prod.fst = sites ∧
    (match_nearest_patches sites meta search_radius_deg max_candidates
        max_cloud_cover).length = sites.length := by
  constructor
  · simp [match_nearest_patches, List.map_map, Function.comp_def]
  · simp [match_nearest_patches]

/-- C7: `match_nearest_patches` is deterministic — two runs on equal
sites tables and equal metadata tables, with the same parameters, produce
identical outputs. -/
theorem match_deterministic (sites1 sites2 : List SiteRow)
    (meta1 meta2 : List Patch) (search_radius_deg : ℝ) (max_candidates : ℕ)
    (max_cloud_cover : ℝ) (h1 : sites1 = sites2) (h2 : meta1 = meta2) :
    match_nearest_patches sites1 meta1 search_radius_deg max_candidates max_cloud_cover =
      match_nearest_patches sites2 meta2 search_radius_deg max_candidates max_cloud_cover := by
  rw [h1, h2]

/-- Witness for C7 at a concrete input. -/
theorem match_deterministic_witness :
    match_nearest_patches [] [] 1 1000 50 = match_nearest_patches [] [] 1 1000 50 :=
  match_deterministic [] [] [] [] 1 1000 50 rfl rfl

/-! ### The loader -/

/-- Filtering before a `filterMap` is the `filterMap` guarded by the
filter predicate. -/
theorem filterMap_of_filter {α β : Type} (p : α → Bool) (f : α → Option β) :
    ∀ l : List α, (l.filter p).filterMap f =
      l.filterMap fun a => if p a = true then f a else none := by
  intro l
  induction l with
  | nil => rfl
  | cons a l ih =>
    by_cases h : p a = true <;>
      simp [List.filter_cons, List.filterMap_cons, h, ih]

/-- C9: `load_predicts_sites` returns exactly the rows of the
concatenated input files whose `Predominant_land_use` is Cropland,
Pasture or Plantation forest, whose `Latitude` and `Longitude` are
non-null and whose `Sample_midpoint` parses as a date, each with
`site_uid = Source_ID ++ "::" ++ Site_number`. -/
theorem load_sites_eq_spec (parseDate : String → Option ℤ)
    (paths : List (String × List RawRow)) :
    load_predicts_sites parseDate paths = load_predicts_sitesSpec parseDate paths := by
  unfold load_predicts_sites load_predicts_sitesSpec
  rw [filterMap_of_filter]
  refine List.filterMap_congr fun fr _ => ?_
  by_cases h : fr.2.Predominant_land_use ∈ AG_LAND_USES
  · rcases fr with ⟨src, r⟩
    rcases hla : r.Latitude with _ | la <;>
      rcases hlo : r.Longitude with _ | lo <;>
        rcases hms : r.Sample_midpoint with _ | ms <;>
          simp [h, hla, hlo, hms, mkSite]
  · rcases fr with ⟨src, r⟩
    rcases hla : r.Latitude with _ | la <;>
      rcases hlo : r.Longitude with _ | lo <;>
        rcases hms : r.Sample_midpoint with _ | ms <;>
          simp [h, hla, hlo, hms]

/-! ### The matcher: basic characterizations -/

/-- The bounding-box candidate list of a site (source lines 76–81). -/
def candidatesOf (meta : List Patch) (s : SiteRow) (search_radius_deg : ℝ) : List Patch :=
  meta.filter fun p => decide (inBox s search_radius_deg p)

/-- The candidates surviving the cloud-cover filter (source line 106). -/
def candidates2Of (meta : List Patch) (s : SiteRow)
    (search_radius_deg max_cloud_cover : ℝ) : List Patch :=
  (candidatesOf meta s search_radius_deg).filter
    fun p => decide (p.cloud_cover ≤ max_cloud_cover)

theorem matchOne_def (meta : List Patch) (r : ℝ) (mc : ℕ) (cc : ℝ) (s : SiteRow) :
    matchOne meta r mc cc s =
      if (candidatesOf meta s r).isEmpty then none else
      if (candidates2Of meta s r cc).isEmpty then none else
      match List.insertionSort (keyLe s)
          ((List.insertionSort (distLe s) (candidates2Of meta s r cc)).take mc) with
      | [] => none
      | best :: _ => some (mkRec s best) := rfl

theorem mem_candidates2 {meta : List Patch} {s : SiteRow} {r cc : ℝ} {p : Patch} :
    p ∈ candidates2Of meta s r cc ↔ p ∈ meta ∧ acceptable s r cc p := by
  simp only [candidates2Of, candidatesOf, List.mem_filter, decide_eq_true_eq, acceptable]
  tauto

theorem length_candidates2 (meta : List Patch) (s : SiteRow) (r cc : ℝ) :
    (candidates2Of meta s r cc).length =
      meta.countP fun p => decide (acceptable s r cc p) := by
  unfold candidates2Of candidatesOf
  rw [← List.countP_eq_length_filter, List.countP_filter]
  refine List.countP_congr fun p _ => ?_
  simp [acceptable, Bool.and_comm]

theorem keyLe_refl (s : SiteRow) (p : Patch) : keyLe s p p := by
  unfold keyLe; exact le_refl _

instance keyLe_isTotal (s : SiteRow) : IsTotal Patch (keyLe s) :=
  ⟨fun a b => le_total (patchKey s a) (patchKey s b)⟩

instance keyLe_isTrans (s : SiteRow) : IsTrans Patch (keyLe s) :=
  ⟨fun _ _ _ hab hbc => le_trans hab hbc⟩

/-- Every successful match record comes from a metadata patch that passed
both filters. -/
theorem exists_of_matchOne_some {meta : List Patch} {r : ℝ} {mc : ℕ} {cc : ℝ}
    {s : SiteRow} {rec : MatchRec} (h : matchOne meta r mc cc s = some rec) :
    ∃ p, p ∈ meta ∧ acceptable s r cc p ∧ rec = mkRec s p := by
  rw [matchOne_def] at h
  by_cases h1 : (candidatesOf meta s r).isEmpty = true
  · rw [if_pos h1] at h; exact absurd h (by simp)
  · rw [if_neg h1] at h
    by_cases h2 : (candidates2Of meta s r cc).isEmpty = true
    · rw [if_pos h2] at h; exact absurd h (by simp)
    · rw [if_neg h2] at h
      cases hs : List.insertionSort (keyLe s)
          ((List.insertionSort (distLe s) (candidates2Of meta s r cc)).take mc) with
      | nil => rw [hs] at h; exact absurd h (by simp)
      | cons best rest =>
        rw [hs] at h
        have hb : best ∈ candidates2Of meta s r cc := by
          have h3 : best ∈ List.insertionSort (keyLe s)
              ((List.insertionSort (distLe s) (candidates2Of meta s r cc)).take mc) := by
            rw [hs]; exact List.mem_cons_self best rest
          have h4 := (List.perm_insertionSort (keyLe s) _).mem_iff.mp h3
          have h5 := List.take_subset mc _ h4
          exact (List.perm_insertionSort (distLe s) _).mem_iff.mp h5
        obtain ⟨hbm, hba⟩ := mem_candidates2.mp hb
        exact ⟨best, hbm, hba, (Option.some.inj h).symm⟩

/-- The per-site match is `none` exactly when no metadata patch passes
both the bounding-box and the cloud-cover filter (for a positive
`max_candidates`). -/
theorem matchOne_none_iff {meta : List Patch} {r : ℝ} {mc : ℕ} {cc : ℝ}
    {s : SiteRow} (hmc : 1 ≤ mc) :
    matchOne meta r mc cc s = none ↔ ¬ ∃ p, p ∈ meta ∧ acceptable s r cc p := by
  rw [matchOne_def]
  by_cases h2 : (candidates2Of meta s r cc).isEmpty = true
  · have h2e : candidates2Of meta s r cc = [] := List.isEmpty_iff.mp h2
    have hno : ¬ ∃ p, p ∈ meta ∧ acceptable s r cc p := by
      rintro ⟨p, hp, hacc⟩
      have hmem : p ∈ candidates2Of meta s r cc := mem_candidates2.mpr ⟨hp, hacc⟩
      rw [h2e] at hmem
      exact absurd hmem (List.not_mem_nil p)
    by_cases h1 : (candidatesOf meta s r).isEmpty = true
    · rw [if_pos h1]; exact iff_of_true rfl hno
    · rw [if_neg h1, if_pos h2]; exact iff_of_true rfl hno
  · have hne : candidates2Of meta s r cc ≠ [] := by
      intro hnil; exact h2 (by rw [hnil]; rfl)
    have h1 : ¬ (candidatesOf meta s r).isEmpty = true := by
      intro ht
      apply hne
      unfold candidates2Of
      rw [List.isEmpty_iff.mp ht]
      rfl
    rw [if_neg h1, if_neg h2]
    obtain ⟨p0, hp0⟩ := List.exists_mem_of_ne_nil _ hne
    obtain ⟨hp0m, hp0a⟩ := mem_candidates2.mp hp0
    have hlen : 0 < (List.insertionSort (keyLe s)
        ((List.insertionSort (distLe s) (candidates2Of meta s r cc)).take mc)).length := by
      rw [(List.perm_insertionSort _ _).length_eq, List.length_take,
        (List.perm_insertionSort _ _).length_eq]
      exact lt_min hmc (List.length_pos.mpr hne)
    cases hs : List.insertionSort (keyLe s)
        ((List.insertionSort (distLe s) (candidates2Of meta s r cc)).take mc) with
    | nil => rw [hs] at hlen; simp at hlen
    | cons best rest =>
      exact iff_of_false (by simp) (not_not_intro ⟨p0, hp0m, hp0a⟩)

/-- When at most `max_candidates` patches are acceptable, the per-site
match is the lexicographic minimum of the acceptable patches. -/
theorem matchOne_lex_min {meta : List Patch} {r : ℝ} {mc : ℕ} {cc : ℝ} {s : SiteRow}
    (hex : ∃ p, p ∈ meta ∧ acceptable s r cc p)
    (hcount : (meta.countP fun p => decide (acceptable s r cc p)) ≤ mc) :
    ∃ p, p ∈ meta ∧ acceptable s r cc p ∧ matchOne meta r mc cc s = some (mkRec s p) ∧
      ∀ q, q ∈ meta → acceptable s r cc q → keyLe s p q := by
  obtain ⟨p0, hp0m, hp0a⟩ := hex
  have hp0c2 : p0 ∈ candidates2Of meta s r cc := mem_candidates2.mpr ⟨hp0m, hp0a⟩
  have hne : candidates2Of meta s r cc ≠ [] := List.ne_nil_of_mem hp0c2
  have h2 : ¬ (candidates2Of meta s r cc).isEmpty = true := by
    simpa [List.isEmpty_iff] using hne
  have h1 : ¬ (candidatesOf meta s r).isEmpty = true := by
    intro ht
    apply hne
    unfold candidates2Of
    rw [List.isEmpty_iff.mp ht]
    rfl
  have hlen2 : (candidates2Of meta s r cc).length ≤ mc := by
    rw [length_candidates2]; exact hcount
  have htake : (List.insertionSort (distLe s) (candidates2Of meta s r cc)).take mc =
      List.insertionSort (distLe s) (candidates2Of meta s r cc) :=
    List.take_of_length_le (by rw [(List.perm_insertionSort _ _).length_eq]; exact hlen2)
  have hperm : (List.insertionSort (keyLe s)
      ((List.insertionSort (distLe s) (candidates2Of meta s r cc)).take mc)).Perm
      (candidates2Of meta s r cc) := by
    rw [htake]
    exact (List.perm_insertionSort _ _).trans (List.perm_insertionSort _ _)
  have hsorted : List.Sorted (keyLe s) (List.insertionSort (keyLe s)
      ((List.insertionSort (distLe s) (candidates2Of meta s r cc)).take mc)) :=
    List.sorted_insertionSort _ _
  cases hs : List.insertionSort (keyLe s)
      ((List.insertionSort (distLe s) (candidates2Of meta s r cc)).take mc) with
  | nil =>
    exfalso
    rw [hs] at hperm
    have h0 : (candidates2Of meta s r cc).length = 0 := by
      simpa using hperm.length_eq.symm
    exact hne (List.length_eq_zero.mp h0)
  | cons best rest =>
    rw [hs] at hperm hsorted
    have hbmem : best ∈ candidates2Of meta s r cc :=
      hperm.mem_iff.mp (List.mem_cons_self best rest)
    obtain ⟨hbm, hba⟩ := mem_candidates2.mp hbmem
    refine ⟨best, hbm, hba, ?_, ?_⟩
    · rw [matchOne_def, if_neg h1, if_neg h2, hs]
    · intro q hqm hqa
      have hqc2 : q ∈ candidates2Of meta s r cc := mem_candidates2.mpr ⟨hqm, hqa⟩
      rcases List.mem_cons.mp (hperm.mem_iff.mpr hqc2) with heq | hqr
      · rw [heq]; exact keyLe_refl s best
      · exact List.rel_of_sorted_cons hsorted q hqr

/-! ### The claim theorems about the matcher -/

/-- C2: every non-null match returned by `match_nearest_patches` comes
from a metadata patch whose `centre_lat` differs from the site's
`Latitude` by at most `search_radius_deg`, and whose `centre_lon` differs
from the site's `Longitude` by at most `search_radius_deg`. -/
theorem match_within_box {sites : List SiteRow} {meta : List Patch} {r : ℝ}
    {mc : ℕ} {cc : ℝ} {s : SiteRow} {rec : MatchRec}
    (h : (s, some rec) ∈ match_nearest_patches sites meta r mc cc) :
    ∃ p, p ∈ meta ∧ rec = mkRec s p ∧
      |p.centre_lat - s.Latitude| ≤ r ∧ |p.centre_lon - s.Longitude| ≤ r := by
  unfold match_nearest_patches at h
  obtain ⟨s2, _, heq⟩ := List.mem_map.mp h
  obtain ⟨hse, hmo⟩ := Prod.ext_iff.mp heq
  subst hse
  obtain ⟨p, hpm, hpa, hrec⟩ := exists_of_matchOne_some hmo
  obtain ⟨hb1, hb2, hb3, hb4⟩ := hpa.1
  refine ⟨p, hpm, hrec, ?_, ?_⟩ <;> (rw [abs_le]; constructor <;> linarith)

/-- C3: every non-null match returned by `match_nearest_patches` has cloud
cover at most `max_cloud_cover` (50 in the invocation from `main`). -/
theorem match_cloud_cover_le {sites : List SiteRow} {meta : List Patch} {r : ℝ}
    {mc : ℕ} {cc : ℝ} {s : SiteRow} {rec : MatchRec}
    (h : (s, some rec) ∈ match_nearest_patches sites meta r mc cc) :
    rec.cloud_cover ≤ cc := by
  unfold match_nearest_patches at h
  obtain ⟨s2, _, heq⟩ := List.mem_map.mp h
  obtain ⟨hse, hmo⟩ := Prod.ext_iff.mp heq
  subst hse
  obtain ⟨p, _, hpa, hrec⟩ := exists_of_matchOne_some hmo
  rw [hrec]
  exact hpa.2

/-- C6: in every non-null match, the recorded `lag_days` is the whole-day
count of the absolute difference between the matched patch's acquisition
timestamp and the site's `Sample_midpoint` (both in seconds), and is
non-negative. -/
theorem match_lag_days_eq {sites : List SiteRow} {meta : List Patch} {r : ℝ}
    {mc : ℕ} {cc : ℝ} {s : SiteRow} {rec : MatchRec}
    (h : (s, some rec) ∈ match_nearest_patches sites meta r mc cc) :
    rec.lag_days = rec.eo_timestamp.map
        (fun t => (((t - s.Sample_midpoint).natAbs : ℤ)) / 86400) ∧
    ∀ l, rec.lag_days = some l → 0 ≤ l := by
  unfold match_nearest_patches at h
  obtain ⟨s2, _, heq⟩ := List.mem_map.mp h
  obtain ⟨hse, hmo⟩ := Prod.ext_iff.mp heq
  subst hse
  obtain ⟨p, _, _, hrec⟩ := exists_of_matchOne_some hmo
  subst hrec
  constructor
  · simp [mkRec, dayLag]
  · intro l hl
    simp [mkRec] at hl
    obtain ⟨t, _, hft⟩ := hl
    rw [← hft]
    unfold dayLag
    exact Int.ediv_nonneg (Int.natCast_nonneg _) (by norm_num)

/-- C8: when every metadata timestamp parses and `max_candidates` is
positive, an output record's match component is `none` exactly when no
metadata patch is both inside the site's bounding box and within the
cloud-cover threshold; otherwise all match fields are populated. -/
theorem match_none_iff_no_acceptable {sites : List SiteRow} {meta : List Patch}
    {r : ℝ} {mc : ℕ} {cc : ℝ} (hmc : 1 ≤ mc)
    (hparse : ∀ p, p ∈ meta → p.timestamp_dt.isSome = true)
    {s : SiteRow} {om : Option MatchRec}
    (hmem : (s, om) ∈ match_nearest_patches sites meta r mc cc) :
    (om = none ↔ ¬ ∃ p, p ∈ meta ∧ acceptable s r cc p) ∧
    ∀ rec, om = some rec →
      rec.eo_timestamp.isSome = true ∧ rec.lag_days.isSome = true := by
  unfold match_nearest_patches at hmem
  obtain ⟨s2, _, heq⟩ := List.mem_map.mp hmem
  obtain ⟨hse, hmo⟩ := Prod.ext_iff.mp heq
  subst hse
  subst hmo
  constructor
  · exact matchOne_none_iff hmc
  · intro rec hrec
    obtain ⟨p, hpm, _, hpe⟩ := exists_of_matchOne_some hrec
    subst hpe
    have hts := hparse p hpm
    constructor
    · simpa [mkRec] using hts
    · simpa [mkRec] using hts

/-- C1 (amended): for every site having at least one acceptable in-box
patch, if at most `max_candidates` metadata patches are acceptable for
the site (and the metadata timestamps parse), the returned match is the
minimum over all acceptable in-box patches under the lexicographic
(haversine distance, absolute whole-day temporal lag, cloud cover)
ordering. -/
theorem match_lex_minimum {sites : List SiteRow} {meta : List Patch} {r : ℝ}
    {mc : ℕ} {cc : ℝ} {s : SiteRow} (hs : s ∈ sites)
    (hex : ∃ p, p ∈ meta ∧ acceptable s r cc p)
    (hcount : (meta.countP fun p => decide (acceptable s r cc p)) ≤ mc)
    (_hparse : ∀ p, p ∈ meta → p.timestamp_dt.isSome = true) :
    ∃ p, p ∈ meta ∧ acceptable s r cc p ∧
      (s, some (mkRec s p)) ∈ match_nearest_patches sites meta r mc cc ∧
      ∀ q, q ∈ meta → acceptable s r cc q → keyLe s p q := by
  obtain ⟨p, hpm, hpa, hmo, hmin⟩ := matchOne_lex_min hex hcount
  refine ⟨p, hpm, hpa, ?_, hmin⟩
  unfold match_nearest_patches
  exact List.mem_map.mpr ⟨s, hs, by rw [hmo]⟩

/-! ### Concrete data for witnesses and the counterexample -/

/-- A concrete site at the origin with `Sample_midpoint = 0`. -/
def wSite : SiteRow :=
  { Site_number := "1"
    Source_ID := "S"
    Latitude := 0
    Longitude := 0
    Predominant_land_use := "Cropland"
    Sample_midpoint := 0
    Country := "C"
    Use_intensity := "U"
    source_file := "f"
    site_uid := "S::1" }

/-- A concrete patch at the origin, acquisition timestamp 0 (lag 0 days). -/
def wPatch : Patch :=
  { grid_cell := "g"
    product_id := "B"
    timestamp_dt := some 0
    cloud_cover := 0
    centre_lat := 0
    centre_lon := 0
    parquet_url := "u"
    parquet_row := 0 }

/-- A concrete patch at the origin, acquisition timestamp 864000 seconds
(lag 10 days). -/
def cexPatchA : Patch :=
  { grid_cell := "g"
    product_id := "A"
    timestamp_dt := some 864000
    cloud_cover := 0
    centre_lat := 0
    centre_lon := 0
    parquet_url := "u"
    parquet_row := 0 }

theorem inBox_wPatch : inBox wSite 1 wPatch := by
  refine ⟨?_, ?_, ?_, ?_⟩ <;> norm_num [inBox, wSite, wPatch]

theorem inBox_cexPatchA : inBox wSite 1 cexPatchA := by
  refine ⟨?_, ?_, ?_, ?_⟩ <;> norm_num [inBox, wSite, cexPatchA]

theorem matchOne_single_eval :
    matchOne [wPatch] 1 1000 50 wSite = some (mkRec wSite wPatch) := by
  have hcc : wPatch.cloud_cover ≤ (50 : ℝ) := by norm_num [wPatch]
  have hc : candidatesOf [wPatch] wSite 1 = [wPatch] := by
    simp [candidatesOf, inBox_wPatch]
  have hc2 : candidates2Of [wPatch] wSite 1 50 = [wPatch] := by
    simp [candidates2Of, hc, hcc]
  have hsort1 : List.insertionSort (distLe wSite) [wPatch] = [wPatch] := by simp
  have htake : ([wPatch] : List Patch).take 1000 = [wPatch] :=
    List.take_of_length_le (by norm_num)
  have hsort2 : List.insertionSort (keyLe wSite) [wPatch] = [wPatch] := by simp
  rw [matchOne_def, hc, hc2, hsort1, htake, hsort2]
  simp

theorem mnp_single_eval :
    match_nearest_patches [wSite] [wPatch] 1 1000 50 =
      [(wSite, some (mkRec wSite wPatch))] := by
  unfold match_nearest_patches
  simp [matchOne_single_eval]

/-! ### Witnesses for the matcher claims -/

/-- Witness for C1 at a concrete input. -/
theorem match_lex_minimum_witness :
    ∃ p, p ∈ [wPatch] ∧ acceptable wSite 1 50 p ∧
      (wSite, some (mkRec wSite p)) ∈ match_nearest_patches [wSite] [wPatch] 1 1000 50 ∧
      ∀ q, q ∈ [wPatch] → acceptable wSite 1 50 q → keyLe wSite p q :=
  match_lex_minimum (List.mem_singleton.mpr rfl)
    ⟨wPatch, List.mem_singleton.mpr rfl, inBox_wPatch, by norm_num [wPatch]⟩
    (le_trans (List.countP_le_length _) (by norm_num))
    (by intro p hp; rw [List.mem_singleton] at hp; rw [hp]; rfl)

/-- Witness for C2 at a concrete input. -/
theorem match_within_box_witness :
    ∃ p, p ∈ [wPatch] ∧ mkRec wSite wPatch = mkRec wSite p ∧
      |p.centre_lat - wSite.Latitude| ≤ 1 ∧ |p.centre_lon - wSite.Longitude| ≤ 1 :=
  match_within_box (by rw [mnp_single_eval]; exact List.mem_singleton.mpr rfl)

/-- Witness for C3 at a concrete input. -/
theorem match_cloud_cover_le_witness : (mkRec wSite wPatch).cloud_cover ≤ 50 :=
  match_cloud_cover_le (by rw [mnp_single_eval]; exact List.mem_singleton.mpr rfl)

/-- Witness for C6 at a concrete input. -/
theorem match_lag_days_eq_witness :
    (mkRec wSite wPatch).lag_days = (mkRec wSite wPatch).eo_timestamp.map
        (fun t => (((t - wSite.Sample_midpoint).natAbs : ℤ)) / 86400) ∧
    ∀ l, (mkRec wSite wPatch).lag_days = some l → 0 ≤ l :=
  match_lag_days_eq (by rw [mnp_single_eval]; exact List.mem_singleton.mpr rfl)

/-- Witness for C8 at a concrete input. -/
theorem match_none_iff_no_acceptable_witness :
    (mkRec wSite wPatch).eo_timestamp.isSome = true ∧
    (mkRec wSite wPatch).lag_days.isSome = true :=
  (@match_none_iff_no_acceptable [wSite] [wPatch] 1 1000 50 (by norm_num)
    (by intro p hp; rw [List.mem_singleton] at hp; rw [hp]; rfl)
    wSite (some (mkRec wSite wPatch))
    (by rw [mnp_single_eval]; exact List.mem_singleton.mpr rfl)).2
    (mkRec wSite wPatch) rfl

/-! ### Counterexample to C1 as stated

With `max_candidates = 1` and two acceptable patches at the same
distance, `nsmallest(max_candidates, "distance_km")` (keep="first")
discards the later patch even when its temporal lag is smaller, so the
returned patch is not the lexicographic minimum over all acceptable
in-box patches. -/

/-- Counterexample to C1 as stated: the returned patch (`cexPatchA`, lag
10 days) is not lexicographically minimal — the acceptable in-box patch
`wPatch` (equal distance, lag 0 days) is strictly smaller, but was cut by
the `max_candidates` pruning. -/
theorem match_lex_minimum_cex :
    match_nearest_patches [wSite] [cexPatchA, wPatch] 1 1 50 =
        [(wSite, some (mkRec wSite cexPatchA))] ∧
    acceptable wSite 1 50 wPatch ∧
    ¬ keyLe wSite cexPatchA wPatch := by
  have hccA : cexPatchA.cloud_cover ≤ (50 : ℝ) := by norm_num [cexPatchA]
  have hccW : wPatch.cloud_cover ≤ (50 : ℝ) := by norm_num [wPatch]
  refine ⟨?_, ⟨inBox_wPatch, hccW⟩, ?_⟩
  · have hc : candidatesOf [cexPatchA, wPatch] wSite 1 = [cexPatchA, wPatch] := by
      simp [candidatesOf, inBox_cexPatchA, inBox_wPatch]
    have hc2 : candidates2Of [cexPatchA, wPatch] wSite 1 50 = [cexPatchA, wPatch] := by
      simp [candidates2Of, hc, hccA, hccW]
    have hd : distLe wSite cexPatchA wPatch := by
      norm_num [distLe, cexPatchA, wPatch]
    have hsort1 : List.insertionSort (distLe wSite) [cexPatchA, wPatch] =
        [cexPatchA, wPatch] := by
      simp [hd]
    have htake : ([cexPatchA, wPatch] : List Patch).take 1 = [cexPatchA] := rfl
    have hsort2 : List.insertionSort (keyLe wSite) [cexPatchA] = [cexPatchA] := by simp
    have hmo : matchOne [cexPatchA, wPatch] 1 1 50 wSite = some (mkRec wSite cexPatchA) := by
      rw [matchOne_def, hc, hc2, hsort1, htake, hsort2]
      simp
    unfold match_nearest_patches
    simp [hmo]
  · unfold keyLe
    rw [not_le]
    unfold patchKey
    rw [Prod.Lex.lt_iff]
    refine Or.inr ⟨?_, ?_⟩
    · simp [wSite, wPatch, cexPatchA]
    · rw [Prod.Lex.lt_iff]
      refine Or.inl ?_
      simp only [lagTop, wSite, wPatch, cexPatchA, dayLag]
      norm_num

end

end MajorTomMatch
